import Mathlib

/-!
A verification development for the inventory-ledger core of the
`essentia_commerce_plugin` repository.

The Rust source (`src/types/inventory_sync.rs` and
`src/implementation/inventory_sync/service.rs`) is shallowly embedded:

* `i64` fields become `Int` together with explicit saturating/wrapping
  operations at the 64-bit bounds (`satAdd64`, `satSub64`, `wrap64`),
  mirroring Rust's `saturating_add`/`saturating_sub` and two's-complement
  behaviour of plain arithmetic;
* `u32` parameters become `Nat` arguments (coerced to `Int` where the source
  applies `i64::from`);
* the `HashMap`s behind the service's mutexes become association lists with
  replace-or-append insertion (`setKey`) and first-match lookup (`lookupKey`);
  the `Vec` of adjustments becomes a list with append;
* `SystemTime::now()` becomes an explicit `now : Nat` parameter, and
  `Instant` durations an explicit `duration` parameter;
* each `&self` method becomes a function `InventoryService → ... →
  Except CommerceError α × InventoryService`; Rust's early `return Err(e)`
  leaves the service in whatever state the mutations so far produced, which
  the pair return type expresses directly.  In this single-threaded embedding
  a `Mutex::lock` always succeeds, so `LockError` is never produced; the
  fallibility of the per-item step of `apply_sync_changes` is kept by
  parametrising the batch loop over the item handler.
-/

namespace EssentiaCommerce

/-! ### 64-bit integer arithmetic -/

/-- `i64::MIN`. -/
def i64Min : Int := -9223372036854775808

/-- `i64::MAX`. -/
def i64Max : Int := 9223372036854775807

/-- Clamp an integer into the `i64` range (the result of Rust's saturating
arithmetic). -/
def clamp64 (x : Int) : Int := max i64Min (min i64Max x)

/-- Rust `i64::saturating_add`. -/
def satAdd64 (a b : Int) : Int := clamp64 (a + b)

/-- Rust `i64::saturating_sub`. -/
def satSub64 (a b : Int) : Int := clamp64 (a - b)

/-- Plain (release-mode, two's-complement wrapping) `i64` arithmetic on a
mathematical-integer result. -/
def wrap64 (x : Int) : Int := (x + 9223372036854775808) % 18446744073709551616 - 9223372036854775808

/-- Rust `as u32` on a (non-negative) `i64` value: the low 32 bits. -/
def toU32 (x : Int) : Int := x % 4294967296

/-- Membership in the `i64` range. -/
def inI64 (x : Int) : Prop := i64Min ≤ x ∧ x ≤ i64Max

instance (x : Int) : Decidable (inI64 x) := by unfold inI64; infer_instance

/-- Every left-to-right partial sum of the list stays in the `i64` range: the
condition under which Rust's `Iterator::sum::<i64>()` — a fold by plain
(wrapping) `i64` addition — computes the exact mathematical sum. -/
def prefixSumsInI64 (xs : List Int) : Prop :=
  ∀ n, n ≤ xs.length → inI64 ((xs.take n).sum)

instance (xs : List Int) : Decidable (prefixSumsInI64 xs) := by
  unfold prefixSumsInI64; infer_instance

/-! ### Association lists standing in for the service's `HashMap`s -/

/-- First-match lookup in an association list (`HashMap::get`). -/
def lookupKey {α β : Type} [DecidableEq α] : List (α × β) → α → Option β
  | [], _ => none
  | (k, v) :: rest, k' => if k = k' then some v else lookupKey rest k'

/-- Replace the binding of `k` if present, else append it
(`HashMap::insert` / the write-back of `entry(..).or_insert_with(..)`). -/
def setKey {α β : Type} [DecidableEq α] : List (α × β) → α → β → List (α × β)
  | [], k, v => [(k, v)]
  | (k', v') :: rest, k, v => if k' = k then (k, v) :: rest else (k', v') :: setKey rest k v

/-! ### Core data types (`src/types/inventory_sync.rs`) -/

/-- `AdjustmentType`. -/
inductive AdjustmentType : Type
  | Received
  | Shipped
  | Returned
  | Adjustment
  | Transfer
  | Reserved
  | Unreserved
  | Damaged
  | Scrapped
  | CycleCount
deriving DecidableEq, Repr

/-- `InventoryLevel`: the ledger row for one (product, variant, location);
`i64` quantity fields modelled as `Int`, `u32` configuration fields as `Nat`. -/
structure InventoryLevel : Type where
  product_id : String
  variant_id : Option String
  location_id : String
  available : Int
  committed : Int
  on_hand : Int
  incoming : Int
  damaged : Int
  low_stock_threshold : Nat
  reorder_point : Nat
  reorder_quantity : Nat
  safety_stock : Nat
  last_count_at : Option Nat
  updated_at : Nat
deriving DecidableEq, Repr

namespace InventoryLevel

/-- `InventoryLevel::new`. -/
def new (product_id location_id : String) (now : Nat) : InventoryLevel where
  product_id := product_id
  variant_id := none
  location_id := location_id
  available := 0
  committed := 0
  on_hand := 0
  incoming := 0
  damaged := 0
  low_stock_threshold := 10
  reorder_point := 20
  reorder_quantity := 50
  safety_stock := 5
  last_count_at := none
  updated_at := now

/-- `InventoryLevel::is_low_stock`. -/
def is_low_stock (l : InventoryLevel) : Bool :=
  l.available > 0 && l.available ≤ (l.low_stock_threshold : Int)

/-- `InventoryLevel::is_out_of_stock`. -/
def is_out_of_stock (l : InventoryLevel) : Bool :=
  l.available ≤ 0

/-- `InventoryLevel::needs_reorder`. -/
def needs_reorder (l : InventoryLevel) : Bool :=
  l.available ≤ (l.reorder_point : Int)

/-- `InventoryLevel::recalculate_available` (followed by `touch`). -/
def recalculate_available (l : InventoryLevel) (now : Nat) : InventoryLevel :=
  { l with available := satSub64 (satSub64 l.on_hand l.committed) l.damaged, updated_at := now }

end InventoryLevel

/-- `InventoryAdjustment`: one immutable audit record. -/
structure InventoryAdjustment : Type where
  id : String
  product_id : String
  variant_id : Option String
  location_id : String
  adjustment_type : AdjustmentType
  quantity : Int
  previous_quantity : Int
  new_quantity : Int
  reference : Option String
  reason : String
  user : Option String
  created_at : Nat
deriving DecidableEq, Repr

namespace InventoryAdjustment

/-- `InventoryAdjustment::new` (the `new_quantity` field is computed with the
source's plain `previous_quantity + quantity`). -/
def new (product_id location_id : String) (adjustment_type : AdjustmentType)
    (quantity previous_quantity : Int) (reason : String) (now : Nat) : InventoryAdjustment where
  id := "adj-" ++ toString now
  product_id := product_id
  variant_id := none
  location_id := location_id
  adjustment_type := adjustment_type
  quantity := quantity
  previous_quantity := previous_quantity
  new_quantity := wrap64 (previous_quantity + quantity)
  reference := none
  reason := reason
  user := none
  created_at := now

/-- `InventoryAdjustment::with_reference`. -/
def with_reference (a : InventoryAdjustment) (reference : String) : InventoryAdjustment :=
  { a with reference := some reference }

end InventoryAdjustment

/-- `InventoryKey`. -/
structure InventoryKey : Type where
  product_id : String
  variant_id : Option String
  location_id : String
deriving DecidableEq, Repr

/-- `TransferStatus`. -/
inductive TransferStatus : Type
  | Pending
  | InProgress
  | Completed
  | Cancelled
deriving DecidableEq, Repr

/-- `TransferItem` (`quantity`, `quantity_received` are `u32`). -/
structure TransferItem : Type where
  product_id : String
  variant_id : Option String
  quantity : Nat
  quantity_received : Nat
deriving DecidableEq, Repr

/-- `StockTransfer`. -/
structure StockTransfer : Type where
  id : String
  from_location : String
  to_location : String
  status : TransferStatus
  items : List TransferItem
  expected_arrival : Option Nat
  arrived_at : Option Nat
  notes : Option String
  created_at : Nat
  updated_at : Nat
deriving DecidableEq, Repr

/-- `LocationType`. -/
inductive LocationType : Type
  | Warehouse
  | DistributionCenter
  | Store
  | Dropship
  | Virtual
deriving DecidableEq, Repr

/-- `InventoryLocation`. -/
structure InventoryLocation : Type where
  id : String
  name : String
  location_type : LocationType
  address : String
  city : String
  state : String
  country_code : String
  postal_code : String
  is_active : Bool
  fulfillment_priority : Nat
  can_ship : Bool
  allows_pickup : Bool
deriving DecidableEq, Repr

/-- `InventoryLocation::warehouse`. -/
def InventoryLocation.warehouse (id : String) (name : String) : InventoryLocation where
  id := id
  name := name
  location_type := .Warehouse
  address := ""
  city := ""
  state := ""
  country_code := ""
  postal_code := ""
  is_active := true
  fulfillment_priority := 1
  can_ship := true
  allows_pickup := false

/-- `SyncStatus`. -/
inductive SyncStatus : Type
  | Success
  | Failed
  | InProgress
  | Partial
deriving DecidableEq, Repr

/-- `SyncResult`. -/
structure SyncResult : Type where
  source_id : String
  status : SyncStatus
  items_processed : Nat
  items_updated : Nat
  items_failed : Nat
  errors : List String
  synced_at : Nat
  duration_ms : Nat
deriving DecidableEq, Repr

/-- `InventoryChangeType`. -/
inductive InventoryChangeType : Type
  | Set
  | Increment
  | Decrement
deriving DecidableEq, Repr

/-- `InventoryChange` (`quantity` is `i64`). -/
structure InventoryChange : Type where
  product_id : String
  sku : Option String
  location_id : String
  quantity : Int
  change_type : InventoryChangeType
  source_timestamp : Option Nat
deriving DecidableEq, Repr

/-- `ExternalSourceType`. -/
inductive ExternalSourceType : Type
  | Erp
  | Wms
  | Pos
  | Marketplace
  | Supplier
  | Manual
deriving DecidableEq, Repr

/-- `ExternalInventorySource`. -/
structure ExternalInventorySource : Type where
  id : String
  name : String
  source_type : ExternalSourceType
  endpoint_url : Option String
  sync_enabled : Bool
  sync_interval_secs : Nat
  last_sync_at : Option Nat
  last_sync_status : Option SyncStatus
deriving DecidableEq, Repr

/-- The variants of `CommerceError` reachable from the inventory service. -/
inductive CommerceError : Type
  | LockError
  | LocationNotFound (id : String)
  | LocationAlreadyExists (id : String)
  | InventoryNotFound (product_id : String)
  | InsufficientInventory (product_id : String) (available : Int) (requested : Nat)
  | TransferNotFound (id : String)
  | InvalidTransferStatus
deriving DecidableEq, Repr

/-- The `Display` rendering of those `CommerceError` variants
(`src/errors/mod.rs`). -/
def CommerceError.display : CommerceError → String
  | .LockError => "Failed to acquire lock"
  | .LocationNotFound id => "Location not found: " ++ id
  | .LocationAlreadyExists id => "Location already exists: " ++ id
  | .InventoryNotFound id => "Inventory record not found: " ++ id
  | .InsufficientInventory product_id available requested =>
      "Insufficient inventory for " ++ product_id ++ ": available " ++ toString available
        ++ ", requested " ++ toString requested
  | .TransferNotFound id => "Transfer not found: " ++ id
  | .InvalidTransferStatus => "Invalid transfer status"

instance {ε α : Type} [DecidableEq ε] [DecidableEq α] : DecidableEq (Except ε α) := fun x y =>
  match x, y with
  | .ok a, .ok b => decidable_of_iff (a = b) (by simp)
  | .error a, .error b => decidable_of_iff (a = b) (by simp)
  | .ok _, .error _ => isFalse (by simp)
  | .error _, .ok _ => isFalse (by simp)

/-- `InventoryService`: its five mutex-protected collections, as lists. -/
structure InventoryService : Type where
  levels : List (InventoryKey × InventoryLevel)
  locations : List (String × InventoryLocation)
  adjustments : List InventoryAdjustment
  transfers : List (String × StockTransfer)
  sources : List (String × ExternalInventorySource)
deriving DecidableEq, Repr

namespace InventoryService

/-- `InventoryService::new`: empty collections plus the default warehouse. -/
def new : InventoryService where
  levels := []
  locations := [("warehouse-main", InventoryLocation.warehouse "warehouse-main" "Main Warehouse")]
  adjustments := []
  transfers := []
  sources := []

/-- `InventoryService::add_location`. -/
def add_location (s : InventoryService) (location : InventoryLocation) :
    Except CommerceError Unit × InventoryService :=
  if (lookupKey s.locations location.id).isSome then
    (.error (.LocationAlreadyExists location.id), s)
  else
    (.ok (), { s with locations := setKey s.locations location.id location })

/-- `InventoryService::get_location`. -/
def get_location (s : InventoryService) (id : String) : Except CommerceError InventoryLocation :=
  match lookupKey s.locations id with
  | some l => .ok l
  | none => .error (.LocationNotFound id)

/-- `InventoryService::get_active_locations`. -/
def get_active_locations (s : InventoryService) : List InventoryLocation :=
  (s.locations.map Prod.snd).filter (fun l => l.is_active)

/-- `InventoryService::record_adjustment` (a `Vec::push`). -/
def record_adjustment (s : InventoryService) (adjustment : InventoryAdjustment) :
    InventoryService :=
  { s with adjustments := s.adjustments ++ [adjustment] }

/-- `InventoryService::set_inventory`. -/
def set_inventory (s : InventoryService) (product_id location_id : String) (on_hand : Int)
    (reason : String) (now : Nat) : Except CommerceError Unit × InventoryService :=
  let key : InventoryKey := ⟨product_id, none, location_id⟩
  let previous_quantity := ((lookupKey s.levels key).map (·.on_hand)).getD 0
  let level0 := (lookupKey s.levels key).getD (InventoryLevel.new product_id location_id now)
  let level := InventoryLevel.recalculate_available { level0 with on_hand := on_hand } now
  let adjustment := InventoryAdjustment.new product_id location_id .Adjustment
    (wrap64 (on_hand - previous_quantity)) previous_quantity reason now
  (.ok (), record_adjustment { s with levels := setKey s.levels key level } adjustment)

/-- `InventoryService::get_inventory`. -/
def get_inventory (s : InventoryService) (product_id location_id : String) :
    Except CommerceError InventoryLevel :=
  match lookupKey s.levels ⟨product_id, none, location_id⟩ with
  | some l => .ok l
  | none => .error (.InventoryNotFound product_id)

/-- `InventoryService::get_total_available`.  The source's
`Iterator::sum::<i64>()` is a fold by plain `i64` addition, which wraps in
release mode, so the sum is modelled as a fold by `wrap64` addition. -/
def get_total_available (s : InventoryService) (product_id : String) : Int :=
  (((s.levels.filter (fun kl => kl.1.product_id = product_id)).map
    (fun kl => kl.2.available))).foldl (fun acc x => wrap64 (acc + x)) 0

/-- `InventoryService::reserve_stock` (`quantity` is `u32`). -/
def reserve_stock (s : InventoryService) (product_id location_id : String) (quantity : Nat)
    (reference : String) (now : Nat) : Except CommerceError Unit × InventoryService :=
  let key : InventoryKey := ⟨product_id, none, location_id⟩
  match lookupKey s.levels key with
  | none => (.error (.InventoryNotFound product_id), s)
  | some level =>
    if level.available < (quantity : Int) then
      (.error (.InsufficientInventory product_id (toU32 (max level.available 0)) quantity), s)
    else
      let previous := level.committed
      let level' := InventoryLevel.recalculate_available
        { level with committed := satAdd64 level.committed (quantity : Int) } now
      let adjustment := (InventoryAdjustment.new product_id location_id .Reserved
        (quantity : Int) previous "Stock reserved for order" now).with_reference reference
      (.ok (), record_adjustment { s with levels := setKey s.levels key level' } adjustment)

/-- `InventoryService::release_stock`. -/
def release_stock (s : InventoryService) (product_id location_id : String) (quantity : Nat)
    (reference : String) (now : Nat) : Except CommerceError Unit × InventoryService :=
  let key : InventoryKey := ⟨product_id, none, location_id⟩
  match lookupKey s.levels key with
  | none => (.error (.InventoryNotFound product_id), s)
  | some level =>
    let previous := level.committed
    let level' := InventoryLevel.recalculate_available
      { level with committed := satSub64 level.committed (quantity : Int) } now
    let adjustment := (InventoryAdjustment.new product_id location_id .Unreserved
      (-(quantity : Int)) previous "Stock released" now).with_reference reference
    (.ok (), record_adjustment { s with levels := setKey s.levels key level' } adjustment)

/-- `InventoryService::commit_stock`. -/
def commit_stock (s : InventoryService) (product_id location_id : String) (quantity : Nat)
    (reference : String) (now : Nat) : Except CommerceError Unit × InventoryService :=
  let key : InventoryKey := ⟨product_id, none, location_id⟩
  match lookupKey s.levels key with
  | none => (.error (.InventoryNotFound product_id), s)
  | some level =>
    let previous := level.on_hand
    let level' := InventoryLevel.recalculate_available
      { level with
          on_hand := satSub64 level.on_hand (quantity : Int),
          committed := satSub64 level.committed (quantity : Int) } now
    let adjustment := (InventoryAdjustment.new product_id location_id .Shipped
      (-(quantity : Int)) previous "Stock shipped" now).with_reference reference
    (.ok (), record_adjustment { s with levels := setKey s.levels key level' } adjustment)

/-- `InventoryService::receive_stock` (creates the record when absent). -/
def receive_stock (s : InventoryService) (product_id location_id : String) (quantity : Nat)
    (reference : String) (now : Nat) : Except CommerceError Unit × InventoryService :=
  let key : InventoryKey := ⟨product_id, none, location_id⟩
  let level0 := (lookupKey s.levels key).getD (InventoryLevel.new product_id location_id now)
  let previous := level0.on_hand
  let level := InventoryLevel.recalculate_available
    { level0 with on_hand := satAdd64 level0.on_hand (quantity : Int) } now
  let adjustment := (InventoryAdjustment.new product_id location_id .Received
    (quantity : Int) previous "Stock received" now).with_reference reference
  (.ok (), record_adjustment { s with levels := setKey s.levels key level } adjustment)

/-- `InventoryService::create_transfer` (`StockTransfer::new` inlined with the
generated id made explicit from `now`). -/
def create_transfer (s : InventoryService) (from_location to_location : String) (now : Nat) :
    Except CommerceError StockTransfer × InventoryService :=
  match get_location s from_location with
  | .error e => (.error e, s)
  | .ok _ =>
    match get_location s to_location with
    | .error e => (.error e, s)
    | .ok _ =>
      let transfer : StockTransfer :=
        { id := "transfer-" ++ toString now
          from_location := from_location
          to_location := to_location
          status := .Pending
          items := []
          expected_arrival := none
          arrived_at := none
          notes := none
          created_at := now
          updated_at := now }
      (.ok transfer, { s with transfers := setKey s.transfers transfer.id transfer })

/-- The per-item loop inside `InventoryService::complete_transfer`: commit at
the source, receive at the destination, stop at the first error (Rust `?`),
keeping whatever state the earlier items produced. -/
def transferItemsLoop (transfer_id from_location to_location : String) (now : Nat) :
    List TransferItem → InventoryService → Except CommerceError Unit × InventoryService
  | [], s => (.ok (), s)
  | item :: rest, s =>
    let reference := "Transfer " ++ transfer_id
    match commit_stock s item.product_id from_location item.quantity reference now with
    | (.error e, s') => (.error e, s')
    | (.ok _, s') =>
      match receive_stock s' item.product_id to_location item.quantity reference now with
      | (.error e, s'') => (.error e, s'')
      | (.ok _, s'') => transferItemsLoop transfer_id from_location to_location now rest s''

/-- `InventoryService::complete_transfer`. -/
def complete_transfer (s : InventoryService) (transfer_id : String) (now : Nat) :
    Except CommerceError Unit × InventoryService :=
  match lookupKey s.transfers transfer_id with
  | none => (.error (.TransferNotFound transfer_id), s)
  | some transfer =>
    if transfer.status ≠ .Pending ∧ transfer.status ≠ .InProgress then
      (.error .InvalidTransferStatus, s)
    else
      match transferItemsLoop transfer_id transfer.from_location transfer.to_location now
          transfer.items s with
      | (.error e, s') => (.error e, s')
      | (.ok _, s') =>
        match lookupKey s'.transfers transfer_id with
        | none => (.error (.TransferNotFound transfer_id), s')
        | some t =>
          let t' := { t with status := TransferStatus.Completed, arrived_at := some now }
          (.ok (), { s' with transfers := setKey s'.transfers transfer_id t' })

/-- `InventoryService::register_source`. -/
def register_source (s : InventoryService) (source : ExternalInventorySource) :
    Except CommerceError Unit × InventoryService :=
  (.ok (), { s with sources := setKey s.sources source.id source })

/-- `InventoryService::apply_single_change`. -/
def apply_single_change (s : InventoryService) (change : InventoryChange) (source_id : String)
    (now : Nat) : Except CommerceError Unit × InventoryService :=
  let key : InventoryKey := ⟨change.product_id, none, change.location_id⟩
  let level0 := (lookupKey s.levels key).getD
    (InventoryLevel.new change.product_id change.location_id now)
  let on_hand' :=
    match change.change_type with
    | .Set => change.quantity
    | .Increment => satAdd64 level0.on_hand change.quantity
    | .Decrement => satSub64 level0.on_hand change.quantity
  let level := InventoryLevel.recalculate_available { level0 with on_hand := on_hand' } now
  let adjustment := InventoryAdjustment.new change.product_id change.location_id .Adjustment
    change.quantity (wrap64 (level.on_hand - change.quantity))
    ("Sync from " ++ source_id) now
  (.ok (), record_adjustment { s with levels := setKey s.levels key level } adjustment)

/-- The batch loop of `InventoryService::apply_sync_changes`, parametrised over
the per-item handler (the source applies `apply_single_change`, whose only
failure mode is a poisoned lock).  Returns the `(processed, updated, failed,
errors)` counters and the final state. -/
def syncLoop (applyOne : InventoryChange → InventoryService →
    Except CommerceError Unit × InventoryService) :
    List InventoryChange → InventoryService →
      (Nat × Nat × Nat × List String) × InventoryService
  | [], s => ((0, 0, 0, []), s)
  | change :: rest, s =>
    match applyOne change s with
    | (.ok _, s') =>
      let ((p, u, f, es), s'') := syncLoop applyOne rest s'
      ((p + 1, u + 1, f, es), s'')
    | (.error e, s') =>
      let ((p, u, f, es), s'') := syncLoop applyOne rest s'
      ((p + 1, u, f + 1, ("Product " ++ change.product_id ++ ": " ++ e.display) :: es), s'')

/-- `InventoryService::apply_sync_changes` with the item handler abstracted. -/
def apply_sync_changes_with (applyOne : InventoryChange → InventoryService →
    Except CommerceError Unit × InventoryService) (s : InventoryService) (source_id : String)
    (changes : List InventoryChange) (now duration_ms : Nat) :
    Except CommerceError SyncResult × InventoryService :=
  let ((processed, updated, failed, errors), s') := syncLoop applyOne changes s
  let status : SyncStatus :=
    if failed = 0 then .Success else if updated > 0 then .Partial else .Failed
  (.ok
    { source_id := source_id
      status := status
      items_processed := processed
      items_updated := updated
      items_failed := failed
      errors := errors
      synced_at := now
      duration_ms := duration_ms }, s')

/-- `InventoryService::apply_sync_changes`. -/
def apply_sync_changes (s : InventoryService) (source_id : String)
    (changes : List InventoryChange) (now duration_ms : Nat) :
    Except CommerceError SyncResult × InventoryService :=
  apply_sync_changes_with (fun change st => apply_single_change st change source_id now)
    s source_id changes now duration_ms

/-- `InventoryService::get_low_stock_products`. -/
def get_low_stock_products (s : InventoryService) : List InventoryLevel :=
  (s.levels.map Prod.snd).filter (fun l => l.is_low_stock)

/-- `InventoryService::get_reorder_needed`. -/
def get_reorder_needed (s : InventoryService) : List InventoryLevel :=
  (s.levels.map Prod.snd).filter (fun l => l.needs_reorder)

/-- `InventoryService::get_out_of_stock`. -/
def get_out_of_stock (s : InventoryService) : List InventoryLevel :=
  (s.levels.map Prod.snd).filter (fun l => l.is_out_of_stock)

/-- Newest-first comparison used by `get_adjustment_history`
(`b.created_at.cmp(&a.created_at)`). -/
def newestFirst (a b : InventoryAdjustment) : Prop :=
  b.created_at ≤ a.created_at

instance : DecidableRel newestFirst := fun a b => by unfold newestFirst; infer_instance

instance : IsTotal InventoryAdjustment newestFirst :=
  ⟨fun a b => by unfold newestFirst; exact Nat.le_total b.created_at a.created_at⟩

instance : IsTrans InventoryAdjustment newestFirst :=
  ⟨fun a b c h1 h2 => by unfold newestFirst at *; exact Nat.le_trans h2 h1⟩

/-- `InventoryService::get_adjustment_history`: filter to the product, stable
sort newest-first by `created_at`, truncate to the optional limit. -/
def get_adjustment_history (s : InventoryService) (product_id : String)
    (limit : Option Nat) : List InventoryAdjustment :=
  let history := List.insertionSort newestFirst
    (s.adjustments.filter (fun a => a.product_id = product_id))
  match limit with
  | some n => history.take n
  | none => history

end InventoryService

/-! ### Invariants and helper lemmas -/

open InventoryService

/-- The §3 invariant for a single ledger row, at the saturation boundaries the
code implements: `available` is the saturating `on_hand − committed − damaged`. -/
def levelInvariant (l : InventoryLevel) : Prop :=
  l.available = satSub64 (satSub64 l.on_hand l.committed) l.damaged

instance (l : InventoryLevel) : Decidable (levelInvariant l) := by
  unfold levelInvariant; infer_instance

/-- The invariant over a levels collection. -/
def InvL (m : List (InventoryKey × InventoryLevel)) : Prop :=
  ∀ kl ∈ m, levelInvariant kl.2

instance (m : List (InventoryKey × InventoryLevel)) : Decidable (InvL m) :=
  List.decidableBAll _ m

/-- The invariant over the whole service state. -/
def Inv (s : InventoryService) : Prop := InvL s.levels

instance (s : InventoryService) : Decidable (Inv s) := by unfold Inv; infer_instance

/-- Well-formedness of one ledger row: the invariant plus the field ranges
every reachable state satisfies (`i64` fields in range, `damaged` never
written by any operation and hence non-negative). -/
def levelWF (l : InventoryLevel) : Prop :=
  levelInvariant l ∧ inI64 l.on_hand ∧ inI64 l.committed ∧ 0 ≤ l.damaged ∧ l.damaged ≤ i64Max

instance (l : InventoryLevel) : Decidable (levelWF l) := by unfold levelWF; infer_instance

/-! ### Concrete states used by witnesses and counterexamples -/

/-- A fresh service after `set_inventory("P", "L", 10)`. -/
def exService10 : InventoryService :=
  (set_inventory InventoryService.new "P" "L" 10 "Initial stock" 0).2

/-- The record that `set_inventory("P", "L", 10)` creates at time 0. -/
def exLevel10 : InventoryLevel where
  product_id := "P"
  variant_id := none
  location_id := "L"
  available := 10
  committed := 0
  on_hand := 10
  incoming := 0
  damaged := 0
  low_stock_threshold := 10
  reorder_point := 20
  reorder_quantity := 50
  safety_stock := 5
  last_count_at := none
  updated_at := 0

/-- A fresh service after `set_inventory("P", "L", 100)`. -/
def exService100 : InventoryService :=
  (set_inventory InventoryService.new "P" "L" 100 "Initial stock" 0).2

/-- The record that `set_inventory("P", "L", 100)` creates at time 0. -/
def exLevel100 : InventoryLevel :=
  { exLevel10 with available := 100, on_hand := 100 }

/-- A fresh service after `set_inventory("P", "L", -5)` (a corrective negative
adjustment, giving a stored negative `available`). -/
def exServiceNeg : InventoryService :=
  (set_inventory InventoryService.new "P" "L" (-5) "Correction" 0).2

/-- The record that `set_inventory("P", "L", -5)` creates at time 0. -/
def exLevelNeg : InventoryLevel :=
  { exLevel10 with available := -5, on_hand := -5 }

/-- The record that `set_inventory("P", "A", 50)` creates at time 0. -/
def exLevel50A : InventoryLevel :=
  { exLevel10 with location_id := "A", available := 50, on_hand := 50 }

/-- A pending one-item transfer of 20 units of "P" from "A" to "B". -/
def exTransfer : StockTransfer where
  id := "T1"
  from_location := "A"
  to_location := "B"
  status := .Pending
  items := [⟨"P", none, 20, 0⟩]
  expected_arrival := none
  arrived_at := none
  notes := none
  created_at := 0
  updated_at := 0

/-- A service holding 50 units of "P" at "A" and the pending transfer `T1`. -/
def exTransferService : InventoryService :=
  { (set_inventory InventoryService.new "P" "A" 50 "Initial stock" 0).2 with
      transfers := [("T1", exTransfer)] }

/-- A pending transfer with a second item whose product "Q" has no record at
the source location. -/
def exTransferBad : StockTransfer :=
  { exTransfer with id := "T2", items := [⟨"P", none, 20, 0⟩, ⟨"Q", none, 5, 0⟩] }

/-- A service holding 50 units of "P" at "A" and the two-item transfer `T2`
whose second item cannot be committed. -/
def exTransferServiceBad : InventoryService :=
  { (set_inventory InventoryService.new "P" "A" 50 "Initial stock" 0).2 with
      transfers := [("T2", exTransferBad)] }

/-- A per-item sync handler that rejects product "BAD" and otherwise behaves
like `apply_single_change` (standing in for an item whose processing fails). -/
def exApplyOne : InventoryChange → InventoryService →
    Except CommerceError Unit × InventoryService :=
  fun change st =>
    if change.product_id = "BAD" then (.error (.InventoryNotFound change.product_id), st)
    else apply_single_change st change "erp-1" 0

/-- A two-change sync batch whose second change fails under `exApplyOne`. -/
def exChanges : List InventoryChange :=
  [⟨"P", none, "L", 7, .Increment, none⟩, ⟨"BAD", none, "L", 7, .Set, none⟩]

/-- A service whose audit log holds four adjustments for "P", created at
times 0 (set), 1 (reserve), 2 (commit), 3 (receive). -/
def exHistoryService : InventoryService :=
  (receive_stock
    (commit_stock (reserve_stock exService100 "P" "L" 30 "ORD-1" 1).2 "P" "L" 30 "ORD-1" 2).2
    "P" "L" 50 "PO-1" 3).2

/-- The `SyncResult` that `exApplyOne` produces on `exChanges`. -/
def exSyncResult : SyncResult where
  source_id := "erp-1"
  status := .Partial
  items_processed := 2
  items_updated := 1
  items_failed := 1
  errors := ["Product BAD: Inventory record not found: BAD"]
  synced_at := 0
  duration_ms := 0

theorem mem_setKey {α β : Type} [DecidableEq α] {m : List (α × β)} {k : α} {v : β}
    {p : α × β} (hp : p ∈ setKey m k v) : p = (k, v) ∨ p ∈ m := by
  induction m with
  | nil => simpa [setKey] using hp
  | cons kv rest ih =>
    by_cases h : kv.1 = k
    · rcases kv with ⟨k', v'⟩
      simp only [setKey, if_pos h, List.mem_cons] at hp
      rcases hp with h1 | h2
      · exact .inl h1
      · exact .inr (List.mem_cons_of_mem _ h2)
    · rcases kv with ⟨k', v'⟩
      simp only [setKey, if_neg h, List.mem_cons] at hp
      rcases hp with h1 | h2
      · exact .inr (by simp [h1])
      · rcases ih h2 with h3 | h4
        · exact .inl h3
        · exact .inr (List.mem_cons_of_mem _ h4)

theorem lookupKey_setKey_self {α β : Type} [DecidableEq α] (m : List (α × β)) (k : α) (v : β) :
    lookupKey (setKey m k v) k = some v := by
  induction m with
  | nil => simp [setKey, lookupKey]
  | cons kv rest ih =>
    rcases kv with ⟨k', v'⟩
    by_cases h : k' = k
    · simp [setKey, lookupKey, h]
    · simp [setKey, lookupKey, h, ih]

theorem lookupKey_setKey_ne {α β : Type} [DecidableEq α] (m : List (α × β)) {k k' : α} (v : β)
    (h : k' ≠ k) : lookupKey (setKey m k v) k' = lookupKey m k' := by
  have h' : k ≠ k' := Ne.symm h
  induction m with
  | nil => simp [setKey, lookupKey, h']
  | cons kv rest ih =>
    rcases kv with ⟨k₀, v₀⟩
    by_cases h0 : k₀ = k
    · subst h0
      simp [setKey, lookupKey, h']
    · simp [setKey, lookupKey, h0, ih]

theorem InvL_setKey {m : List (InventoryKey × InventoryLevel)} {k : InventoryKey}
    {v : InventoryLevel} (hm : InvL m) (hv : levelInvariant v) : InvL (setKey m k v) := by
  intro kl hkl
  rcases mem_setKey hkl with h | h
  · rw [h]; exact hv
  · exact hm kl h

theorem levelInvariant_recalculate (l : InventoryLevel) (now : Nat) :
    levelInvariant (l.recalculate_available now) := by
  simp [levelInvariant, InventoryLevel.recalculate_available]

/-! Invariant preservation, one lemma per mutating operation.  Each of
`set_inventory`, `reserve_stock`, `release_stock`, `commit_stock`,
`receive_stock` and `apply_single_change` either leaves `levels` unchanged
(error paths) or writes back exactly one record that has just gone through
`recalculate_available`. -/

theorem Inv_set_inventory (s : InventoryService) (hInv : Inv s) (p l : String) (oh : Int)
    (reason : String) (now : Nat) : Inv (set_inventory s p l oh reason now).2 :=
  InvL_setKey hInv (levelInvariant_recalculate _ now)

theorem Inv_reserve_stock (s : InventoryService) (hInv : Inv s) (p l : String) (q : Nat)
    (ref : String) (now : Nat) : Inv (reserve_stock s p l q ref now).2 := by
  unfold reserve_stock
  rcases h : lookupKey s.levels ⟨p, none, l⟩ with _ | level
  · simpa [h] using hInv
  · by_cases hq : level.available < (q : Int)
    · simpa [h, hq] using hInv
    · simpa [h, hq] using InvL_setKey hInv (levelInvariant_recalculate _ now)

theorem Inv_release_stock (s : InventoryService) (hInv : Inv s) (p l : String) (q : Nat)
    (ref : String) (now : Nat) : Inv (release_stock s p l q ref now).2 := by
  unfold release_stock
  rcases h : lookupKey s.levels ⟨p, none, l⟩ with _ | level
  · simpa [h] using hInv
  · simpa [h] using InvL_setKey hInv (levelInvariant_recalculate _ now)

theorem Inv_commit_stock (s : InventoryService) (hInv : Inv s) (p l : String) (q : Nat)
    (ref : String) (now : Nat) : Inv (commit_stock s p l q ref now).2 := by
  unfold commit_stock
  rcases h : lookupKey s.levels ⟨p, none, l⟩ with _ | level
  · simpa [h] using hInv
  · simpa [h] using InvL_setKey hInv (levelInvariant_recalculate _ now)

theorem Inv_receive_stock (s : InventoryService) (hInv : Inv s) (p l : String) (q : Nat)
    (ref : String) (now : Nat) : Inv (receive_stock s p l q ref now).2 :=
  InvL_setKey hInv (levelInvariant_recalculate _ now)

theorem Inv_apply_single_change (s : InventoryService) (hInv : Inv s) (c : InventoryChange)
    (sid : String) (now : Nat) : Inv (apply_single_change s c sid now).2 :=
  InvL_setKey hInv (levelInvariant_recalculate _ now)

theorem Inv_transferItemsLoop (tid fl tl : String) (now : Nat) (items : List TransferItem)
    (s : InventoryService) (hInv : Inv s) :
    Inv (transferItemsLoop tid fl tl now items s).2 := by
  induction items generalizing s with
  | nil => simpa [transferItemsLoop] using hInv
  | cons item rest ih =>
    unfold transferItemsLoop
    rcases hc : commit_stock s item.product_id fl item.quantity ("Transfer " ++ tid) now
      with ⟨rc, s'⟩
    have hs' : Inv s' := by
      have := Inv_commit_stock s hInv item.product_id fl item.quantity ("Transfer " ++ tid) now
      rwa [hc] at this
    rcases rc with e | u
    · simpa [hc] using hs'
    · rcases hr : receive_stock s' item.product_id tl item.quantity ("Transfer " ++ tid) now
        with ⟨rr, s''⟩
      have hs'' : Inv s'' := by
        have := Inv_receive_stock s' hs' item.product_id tl item.quantity
          ("Transfer " ++ tid) now
        rwa [hr] at this
      rcases rr with e | u'
      · simpa [hc, hr] using hs''
      · simpa [hc, hr] using ih s'' hs''

theorem Inv_complete_transfer (s : InventoryService) (hInv : Inv s) (tid : String) (now : Nat) :
    Inv (complete_transfer s tid now).2 := by
  unfold complete_transfer
  rcases h : lookupKey s.transfers tid with _ | t
  · simpa [h] using hInv
  · by_cases hst : t.status ≠ TransferStatus.Pending ∧ t.status ≠ TransferStatus.InProgress
    · simpa [h, hst] using hInv
    · have hloop := Inv_transferItemsLoop tid t.from_location t.to_location now t.items s hInv
      rcases hl : transferItemsLoop tid t.from_location t.to_location now t.items s with ⟨r, s'⟩
      have hs' : Inv s' := by rwa [hl] at hloop
      rcases r with e | u
      · simpa [h, hst, hl] using hs'
      · rcases h2 : lookupKey s'.transfers tid with _ | t'
        · simpa [h, hst, hl, h2] using hs'
        · simpa [h, hst, hl, h2, Inv, InvL] using fun kl hkl => hs' kl hkl

theorem commit_stock_transfers (s : InventoryService) (p l : String) (q : Nat)
    (ref : String) (now : Nat) : (commit_stock s p l q ref now).2.transfers = s.transfers := by
  unfold commit_stock
  rcases h : lookupKey s.levels ⟨p, none, l⟩ with _ | L <;> simp [h, record_adjustment]

theorem receive_stock_transfers (s : InventoryService) (p l : String) (q : Nat)
    (ref : String) (now : Nat) : (receive_stock s p l q ref now).2.transfers = s.transfers := by
  simp [receive_stock, record_adjustment]

/-- The per-item loop of `complete_transfer` never touches the transfers
table (it only moves inventory and appends adjustments). -/
theorem transferItemsLoop_transfers (tid fl tl : String) (now : Nat)
    (items : List TransferItem) (s : InventoryService) :
    (transferItemsLoop tid fl tl now items s).2.transfers = s.transfers := by
  induction items generalizing s with
  | nil => simp [transferItemsLoop]
  | cons item rest ih =>
    unfold transferItemsLoop
    rcases hc : commit_stock s item.product_id fl item.quantity ("Transfer " ++ tid) now
      with ⟨rc, s1⟩
    have h1 : s1.transfers = s.transfers := by
      have := commit_stock_transfers s item.product_id fl item.quantity
        ("Transfer " ++ tid) now
      rwa [hc] at this
    rcases rc with e | u
    · simpa [hc] using h1
    · rcases hr : receive_stock s1 item.product_id tl item.quantity ("Transfer " ++ tid) now
        with ⟨rr, s2⟩
      have h2 : s2.transfers = s1.transfers := by
        have := receive_stock_transfers s1 item.product_id tl item.quantity
          ("Transfer " ++ tid) now
        rwa [hr] at this
      rcases rr with e | u'
      · simp [hc, hr, h2, h1]
      · simp only [hc, hr]
        rw [ih s2, h2, h1]

theorem Inv_syncLoop (applyOne : InventoryChange → InventoryService →
    Except CommerceError Unit × InventoryService)
    (hOne : ∀ c st, Inv st → Inv (applyOne c st).2) (changes : List InventoryChange)
    (s : InventoryService) (hInv : Inv s) : Inv (syncLoop applyOne changes s).2 := by
  induction changes generalizing s with
  | nil => simpa [syncLoop] using hInv
  | cons c rest ih =>
    unfold syncLoop
    rcases hc : applyOne c s with ⟨rc, s'⟩
    have hs' : Inv s' := by have := hOne c s hInv; rwa [hc] at this
    rcases rc with e | u
    · rcases hr : syncLoop applyOne rest s' with ⟨⟨p, u', f, es⟩, s''⟩
      have := ih s' hs'
      rw [hr] at this
      simpa [hc, hr] using this
    · rcases hr : syncLoop applyOne rest s' with ⟨⟨p, u', f, es⟩, s''⟩
      have := ih s' hs'
      rw [hr] at this
      simpa [hc, hr] using this

theorem Inv_apply_sync_changes (s : InventoryService) (hInv : Inv s) (sid : String)
    (changes : List InventoryChange) (now dur : Nat) :
    Inv (apply_sync_changes s sid changes now dur).2 := by
  unfold apply_sync_changes apply_sync_changes_with
  rcases hr : syncLoop (fun change st => apply_single_change st change sid now) changes s
    with ⟨⟨p, u, f, es⟩, s'⟩
  have := Inv_syncLoop _ (fun c st h => Inv_apply_single_change st h c sid now) changes s hInv
  rw [hr] at this
  simpa [hr] using this

/-- If a well-formed record passes the `available ≥ qty` guard of
`reserve_stock`, the saturating increment of `committed` is exact: the guard
bounds `committed + qty` by `on_hand − damaged ≤ i64::MAX`. -/
theorem satAdd64_reserve_exact {oh c d : Int} {q : Nat} (hoh : oh ≤ i64Max) (hc : i64Min ≤ c)
    (hd : 0 ≤ d) (hq : (q : Int) ≤ satSub64 (satSub64 oh c) d) :
    satAdd64 c (q : Int) = c + (q : Int) := by
  have hq0 : (0 : Int) ≤ (q : Int) := Int.natCast_nonneg q
  simp only [satSub64, satAdd64, clamp64, i64Min, i64Max] at *
  omega

/-- Saturating subtraction undoes an exact addition of the same quantity. -/
theorem satSub64_cancel {c : Int} (q : Nat) (hc : inI64 c) :
    satSub64 (c + (q : Int)) (q : Int) = c := by
  rcases hc with ⟨h1, h2⟩
  simp only [satSub64, clamp64, i64Min, i64Max] at *
  omega

/-- Saturating addition is exact when the true sum is in range. -/
theorem satAdd64_exact {a b : Int} (h : inI64 (a + b)) : satAdd64 a b = a + b := by
  rcases h with ⟨h1, h2⟩
  simp only [satAdd64, clamp64, i64Min, i64Max] at *
  omega

/-- Saturating subtraction is exact when the true difference is in range. -/
theorem satSub64_exact {a b : Int} (h : inI64 (a - b)) : satSub64 a b = a - b := by
  rcases h with ⟨h1, h2⟩
  simp only [satSub64, clamp64, i64Min, i64Max] at *
  omega

/-- Plain two's-complement `i64` arithmetic is exact when the true value is in
range. -/
theorem wrap64_eq_self {x : Int} (h : inI64 x) : wrap64 x = x := by
  rcases h with ⟨h1, h2⟩
  simp only [wrap64, i64Min, i64Max] at *
  omega

/-- A fold by wrapping `i64` addition computes the exact mathematical sum
when every partial sum stays in range. -/
theorem foldl_wrap64_eq_sum (xs : List Int) (h : prefixSumsInI64 xs) :
    xs.foldl (fun acc x => wrap64 (acc + x)) 0 = xs.sum := by
  have key : ∀ (ys : List Int) (acc : Int),
      (∀ n, n ≤ ys.length → inI64 (acc + (ys.take n).sum)) →
      ys.foldl (fun a x => wrap64 (a + x)) acc = acc + ys.sum := by
    intro ys
    induction ys with
    | nil => intro acc hacc; simp
    | cons x rest ih =>
      intro acc hacc
      have h1 : inI64 (acc + x) := by
        have := hacc 1 (by simp)
        simpa using this
      simp only [List.foldl_cons, wrap64_eq_self h1]
      rw [ih (acc + x) ?_]
      · simp [add_assoc]
      · intro n hn
        have := hacc (n + 1) (by simpa using Nat.succ_le_succ hn)
        simpa [List.take_succ_cons, ← add_assoc] using this
  have hkey := key xs 0 (fun n hn => by simpa using h n hn)
  simpa using hkey

/-! ### Claims -/

/-- C1: for every `InventoryLevel` record, after any completed operation
(`set_inventory`, `reserve_stock`, `release_stock`, `commit_stock`,
`receive_stock`, `apply_sync_changes` item, transfer completion), the field
`available` equals `on_hand − committed − damaged`, clamped at the saturation
boundaries actually implemented (`levelInvariant`).  Stated as preservation:
if every record of the state satisfies the invariant, then after any of the
operations every record still does — in particular the record the operation
touched, which is freshly recomputed by `recalculate_available`. -/
theorem C1_available_invariant (s : InventoryService) (hInv : Inv s)
    (p l reason ref sid tid : String) (oh : Int) (q : Nat) (now dur : Nat)
    (changes : List InventoryChange) :
    Inv (set_inventory s p l oh reason now).2
    ∧ Inv (reserve_stock s p l q ref now).2
    ∧ Inv (release_stock s p l q ref now).2
    ∧ Inv (commit_stock s p l q ref now).2
    ∧ Inv (receive_stock s p l q ref now).2
    ∧ Inv (apply_sync_changes s sid changes now dur).2
    ∧ Inv (complete_transfer s tid now).2 :=
  ⟨Inv_set_inventory s hInv p l oh reason now,
   Inv_reserve_stock s hInv p l q ref now,
   Inv_release_stock s hInv p l q ref now,
   Inv_commit_stock s hInv p l q ref now,
   Inv_receive_stock s hInv p l q ref now,
   Inv_apply_sync_changes s hInv sid changes now dur,
   Inv_complete_transfer s hInv tid now⟩

/-- Witness for C1 at the concrete state holding 50 units of "P" at "A" with
a pending transfer, exercising every operation. -/
theorem C1_available_invariant_witness :
    Inv exTransferService
    ∧ (Inv (set_inventory exTransferService "P" "A" 7 "Recount" 1).2
      ∧ Inv (reserve_stock exTransferService "P" "A" 30 "ORD-1" 1).2
      ∧ Inv (release_stock exTransferService "P" "A" 30 "ORD-1" 1).2
      ∧ Inv (commit_stock exTransferService "P" "A" 30 "ORD-1" 1).2
      ∧ Inv (receive_stock exTransferService "P" "A" 30 "PO-1" 1).2
      ∧ Inv (apply_sync_changes exTransferService "erp-1" exChanges 1 0).2
      ∧ Inv (complete_transfer exTransferService "T1" 1).2) :=
  ⟨by decide,
   C1_available_invariant exTransferService (by decide) "P" "A" "Recount" "ORD-1" "erp-1" "T1"
     7 30 1 0 exChanges⟩

/-- C2 counterexample: the claim says `committed` never goes below zero
because `release_stock` saturates at 0, but the code uses `i64`
saturating subtraction, which saturates at `i64::MIN`.  After
`receive_stock("P", "L", 5)` (so `committed = 0`) a single
`release_stock("P", "L", 3)` stores `committed = -3 < 0`. -/
theorem C2_counterexample :
    ((lookupKey
        (release_stock ((receive_stock InventoryService.new "P" "L" 5 "PO-1" 0).2)
          "P" "L" 3 "ORD-1" 1).2.levels ⟨"P", none, "L"⟩).map
      (fun l => l.committed)) = some (-3) ∧ ¬ ((0 : Int) ≤ -3) := by
  decide

/-- C2 amended: `release_stock` decrements `committed`, and `commit_stock`
decrements both `on_hand` and `committed`, using `i64` *saturating*
subtraction — which clamps at `i64::MIN`, not at 0.  Under skewed call order
the stored quantities therefore remain well-defined (never wrap) but can
become negative. -/
theorem C2_amended_saturation_at_i64_min (s : InventoryService) (p l ref : String)
    (q now : Nat) (L : InventoryLevel) (hL : lookupKey s.levels ⟨p, none, l⟩ = some L)
    (hoh : inI64 L.on_hand) (hc : inI64 L.committed) :
    ((release_stock s p l q ref now).1 = .ok ()
      ∧ (lookupKey (release_stock s p l q ref now).2.levels ⟨p, none, l⟩).map (fun x => x.committed)
          = some (max i64Min (L.committed - (q : Int)))
      ∧ (lookupKey (release_stock s p l q ref now).2.levels ⟨p, none, l⟩).map (fun x => x.on_hand)
          = some L.on_hand)
    ∧ ((commit_stock s p l q ref now).1 = .ok ()
      ∧ (lookupKey (commit_stock s p l q ref now).2.levels ⟨p, none, l⟩).map (fun x => x.on_hand)
          = some (max i64Min (L.on_hand - (q : Int)))
      ∧ (lookupKey (commit_stock s p l q ref now).2.levels ⟨p, none, l⟩).map (fun x => x.committed)
          = some (max i64Min (L.committed - (q : Int)))) := by
  have hsubc : satSub64 L.committed (q : Int) = max i64Min (L.committed - (q : Int)) := by
    rcases hc with ⟨h1, h2⟩
    have hq0 : (0 : Int) ≤ (q : Int) := Int.natCast_nonneg q
    simp only [satSub64, clamp64, i64Min, i64Max] at *
    omega
  have hsuboh : satSub64 L.on_hand (q : Int) = max i64Min (L.on_hand - (q : Int)) := by
    rcases hoh with ⟨h1, h2⟩
    have hq0 : (0 : Int) ≤ (q : Int) := Int.natCast_nonneg q
    simp only [satSub64, clamp64, i64Min, i64Max] at *
    omega
  refine ⟨⟨?_, ?_, ?_⟩, ?_, ?_, ?_⟩ <;>
    simp [release_stock, commit_stock, hL, record_adjustment, lookupKey_setKey_self,
      InventoryLevel.recalculate_available, hsubc, hsuboh]

/-- Witness for C2's amended claim: releasing 3 never-reserved units of the
10-unit record leaves `committed = -3`, and committing 30 units of it leaves
`on_hand = -20`. -/
theorem C2_amended_witness :
    ((lookupKey (release_stock exService10 "P" "L" 3 "ORD-1" 1).2.levels ⟨"P", none, "L"⟩).map
        (fun x => x.committed) = some (max i64Min ((0 : Int) - (3 : Nat)))
      ∧ (max i64Min ((0 : Int) - (3 : Nat)) = -3))
    ∧ ((lookupKey (commit_stock exService10 "P" "L" 30 "ORD-1" 1).2.levels ⟨"P", none, "L"⟩).map
        (fun x => x.on_hand) = some (max i64Min ((10 : Int) - (30 : Nat)))
      ∧ (max i64Min ((10 : Int) - (30 : Nat)) = -20)) :=
  ⟨⟨(C2_amended_saturation_at_i64_min exService10 "P" "L" "ORD-1" 3 1 exLevel10 (by decide)
      (by decide) (by decide)).1.2.1, by decide⟩,
   ⟨(C2_amended_saturation_at_i64_min exService10 "P" "L" "ORD-1" 30 1 exLevel10 (by decide)
      (by decide) (by decide)).2.2.1, by decide⟩⟩

/-- C3: `reserve_stock` fails with `InventoryNotFound` when no record exists;
fails with `InsufficientInventory` carrying the record's (clamped) available
and the requested quantity when `available < qty`; on failure the whole
service state is returned unchanged (so no adjustment is appended); on
success of a well-formed record, `committed` increases by exactly `qty` and
exactly one `Reserved` adjustment is appended. -/
theorem C3_reserve_stock_errors (s : InventoryService) (p l ref : String) (q now : Nat) :
    (lookupKey s.levels ⟨p, none, l⟩ = none →
      reserve_stock s p l q ref now = (.error (.InventoryNotFound p), s))
    ∧ (∀ L, lookupKey s.levels ⟨p, none, l⟩ = some L → L.available < (q : Int) →
      reserve_stock s p l q ref now =
        (.error (.InsufficientInventory p (toU32 (max L.available 0)) q), s))
    ∧ (∀ L, lookupKey s.levels ⟨p, none, l⟩ = some L → (q : Int) ≤ L.available → levelWF L →
      (reserve_stock s p l q ref now).1 = .ok ()
      ∧ (lookupKey (reserve_stock s p l q ref now).2.levels ⟨p, none, l⟩).map
          (fun x => x.committed) = some (L.committed + (q : Int))
      ∧ (reserve_stock s p l q ref now).2.adjustments = s.adjustments ++
          [(InventoryAdjustment.new p l .Reserved (q : Int) L.committed
              "Stock reserved for order" now).with_reference ref]) := by
  refine ⟨fun hnone => ?_, fun L hL hlt => ?_, fun L hL hge hwf => ?_⟩
  · simp [reserve_stock, hnone]
  · simp [reserve_stock, hL, hlt]
  · have hguard : ¬ L.available < (q : Int) := not_lt.mpr hge
    rcases hwf with ⟨hinv, hohL, hcL, hd0, hdM⟩
    have hadd : satAdd64 L.committed (q : Int) = L.committed + (q : Int) :=
      satAdd64_reserve_exact hohL.2 hcL.1 hd0 (hinv ▸ hge)
    refine ⟨?_, ?_, ?_⟩ <;>
      simp [reserve_stock, hL, hguard, record_adjustment, lookupKey_setKey_self,
        InventoryLevel.recalculate_available, hadd]

/-- Witness for C3: on the record with `available = 10`, requesting 999 fails
with `InsufficientInventory{available: 10, requested: 999}` and leaves the
state unchanged; requesting 3 succeeds and raises `committed` to 3. -/
theorem C3_reserve_stock_errors_witness :
    (reserve_stock exService10 "P" "L" 999 "ORD-1" 1 =
      (.error (.InsufficientInventory "P" 10 999), exService10))
    ∧ (lookupKey (reserve_stock exService10 "P" "L" 3 "ORD-1" 1).2.levels ⟨"P", none, "L"⟩).map
        (fun x => x.committed) = some 3 := by
  refine ⟨?_, ?_⟩
  · have h := (C3_reserve_stock_errors exService10 "P" "L" "ORD-1" 999 1).2.1 exLevel10
      (by decide) (by decide)
    have h2 : toU32 (max exLevel10.available 0) = 10 := by decide
    rw [h2] at h
    exact h
  · have h := ((C3_reserve_stock_errors exService10 "P" "L" "ORD-1" 3 1).2.2 exLevel10
      (by decide) (by decide) (by decide)).2.1
    rw [h]; decide

/-- C4 counterexample: the claim says every adjustment's `previous_quantity`
is the on-hand quantity before the operation, but a successful
`reserve_stock` records the *committed* before.  On the record with
`on_hand = 100, committed = 0`, reserving 30 appends an adjustment with
`previous_quantity = 0`, while the on-hand before the operation was 100. -/
theorem C4_counterexample :
    ((reserve_stock exService100 "P" "L" 30 "ORD-1" 1).2.adjustments.getLast?).map
      (fun a => a.previous_quantity) = some 0
    ∧ ((lookupKey exService100.levels ⟨"P", none, "L"⟩).map (fun x => x.on_hand)) = some 100
    ∧ ¬ ((0 : Int) = 100) := by
  decide

/-- C4 amended: every successful stock operation appends exactly one
`InventoryAdjustment`, but the recorded quantities differ by operation.  For
`set_inventory`, `receive_stock` and `commit_stock`, `previous_quantity` is
the on-hand before the operation and `previous_quantity + quantity` the
on-hand after (exact absent `i64` saturation/wrapping); for `reserve_stock`
and `release_stock`, `previous_quantity` is the *committed* before and
`previous_quantity + quantity` the committed after; for applied sync changes
`previous_quantity` is the resulting on-hand minus the recorded quantity (a
synthetic value: the true previous on-hand only for `Increment` changes,
`0` for `Set` changes, previous minus twice the quantity for `Decrement`
changes), so `previous_quantity + quantity` reconstructs the on-hand after
the change, not the before/after pair the claim states. -/
theorem C4_amended_audit_trail (s : InventoryService) (p l reason ref sid : String)
    (oh : Int) (q now : Nat) :
    (∀ L, lookupKey s.levels ⟨p, none, l⟩ = some L → inI64 (oh - L.on_hand) →
      (set_inventory s p l oh reason now).2.adjustments = s.adjustments ++
        [InventoryAdjustment.new p l .Adjustment (oh - L.on_hand) L.on_hand reason now]
      ∧ (lookupKey (set_inventory s p l oh reason now).2.levels ⟨p, none, l⟩).map
          (fun x => x.on_hand) = some oh)
    ∧ (∀ L, lookupKey s.levels ⟨p, none, l⟩ = some L → i64Min ≤ L.on_hand →
        L.on_hand + (q : Int) ≤ i64Max →
      (receive_stock s p l q ref now).2.adjustments = s.adjustments ++
        [(InventoryAdjustment.new p l .Received (q : Int) L.on_hand "Stock received"
            now).with_reference ref]
      ∧ (lookupKey (receive_stock s p l q ref now).2.levels ⟨p, none, l⟩).map
          (fun x => x.on_hand) = some (L.on_hand + (q : Int)))
    ∧ (∀ L, lookupKey s.levels ⟨p, none, l⟩ = some L → i64Min ≤ L.on_hand - (q : Int) →
        L.on_hand ≤ i64Max →
      (commit_stock s p l q ref now).2.adjustments = s.adjustments ++
        [(InventoryAdjustment.new p l .Shipped (-(q : Int)) L.on_hand "Stock shipped"
            now).with_reference ref]
      ∧ (lookupKey (commit_stock s p l q ref now).2.levels ⟨p, none, l⟩).map
          (fun x => x.on_hand) = some (L.on_hand - (q : Int)))
    ∧ (∀ L, lookupKey s.levels ⟨p, none, l⟩ = some L → (q : Int) ≤ L.available → levelWF L →
      (reserve_stock s p l q ref now).2.adjustments = s.adjustments ++
        [(InventoryAdjustment.new p l .Reserved (q : Int) L.committed
            "Stock reserved for order" now).with_reference ref]
      ∧ (lookupKey (reserve_stock s p l q ref now).2.levels ⟨p, none, l⟩).map
          (fun x => x.committed) = some (L.committed + (q : Int)))
    ∧ (∀ L, lookupKey s.levels ⟨p, none, l⟩ = some L → i64Min ≤ L.committed - (q : Int) →
        L.committed ≤ i64Max →
      (release_stock s p l q ref now).2.adjustments = s.adjustments ++
        [(InventoryAdjustment.new p l .Unreserved (-(q : Int)) L.committed "Stock released"
            now).with_reference ref]
      ∧ (lookupKey (release_stock s p l q ref now).2.levels ⟨p, none, l⟩).map
          (fun x => x.committed) = some (L.committed - (q : Int)))
    ∧ (∀ c : InventoryChange, ∀ L, lookupKey s.levels ⟨c.product_id, none, c.location_id⟩ = some L →
        c.change_type = .Set →
      (apply_single_change s c sid now).2.adjustments = s.adjustments ++
        [InventoryAdjustment.new c.product_id c.location_id .Adjustment c.quantity 0
          ("Sync from " ++ sid) now]
      ∧ (lookupKey (apply_single_change s c sid now).2.levels
          ⟨c.product_id, none, c.location_id⟩).map (fun x => x.on_hand) = some c.quantity)
    ∧ (∀ c : InventoryChange, ∀ L, lookupKey s.levels ⟨c.product_id, none, c.location_id⟩ = some L →
        c.change_type = .Increment → inI64 L.on_hand → inI64 (L.on_hand + c.quantity) →
      (apply_single_change s c sid now).2.adjustments = s.adjustments ++
        [InventoryAdjustment.new c.product_id c.location_id .Adjustment c.quantity L.on_hand
          ("Sync from " ++ sid) now]
      ∧ (lookupKey (apply_single_change s c sid now).2.levels
          ⟨c.product_id, none, c.location_id⟩).map (fun x => x.on_hand)
        = some (L.on_hand + c.quantity))
    ∧ (∀ c : InventoryChange, ∀ L, lookupKey s.levels ⟨c.product_id, none, c.location_id⟩ = some L →
        c.change_type = .Decrement → inI64 (L.on_hand - c.quantity) →
        inI64 (L.on_hand - c.quantity - c.quantity) →
      (apply_single_change s c sid now).2.adjustments = s.adjustments ++
        [InventoryAdjustment.new c.product_id c.location_id .Adjustment c.quantity
          (L.on_hand - c.quantity - c.quantity) ("Sync from " ++ sid) now]
      ∧ (lookupKey (apply_single_change s c sid now).2.levels
          ⟨c.product_id, none, c.location_id⟩).map (fun x => x.on_hand)
        = some (L.on_hand - c.quantity)) := by
  have hq0 : (0 : Int) ≤ (q : Int) := Int.natCast_nonneg q
  refine ⟨fun L hL hw => ?_, fun L hL h1 h2 => ?_, fun L hL h1 h2 => ?_,
    fun L hL hge hwf => ?_, fun L hL h1 h2 => ?_, fun c L hL hty => ?_,
    fun c L hL hty h1 h2 => ?_, fun c L hL hty h1 h2 => ?_⟩
  · constructor <;>
      simp [set_inventory, hL, record_adjustment, lookupKey_setKey_self,
        InventoryLevel.recalculate_available, wrap64_eq_self hw]
  · have hadd : satAdd64 L.on_hand (q : Int) = L.on_hand + (q : Int) :=
      satAdd64_exact ⟨le_trans h1 (le_add_of_nonneg_right hq0), h2⟩
    constructor <;>
      simp [receive_stock, hL, record_adjustment, lookupKey_setKey_self,
        InventoryLevel.recalculate_available, hadd]
  · have hsub : satSub64 L.on_hand (q : Int) = L.on_hand - (q : Int) :=
      satSub64_exact ⟨h1, le_trans (sub_le_self _ hq0) h2⟩
    constructor <;>
      simp [commit_stock, hL, record_adjustment, lookupKey_setKey_self,
        InventoryLevel.recalculate_available, hsub]
  · have hguard : ¬ L.available < (q : Int) := not_lt.mpr hge
    rcases hwf with ⟨hinv, hohL, hcL, hd0, hdM⟩
    have hadd : satAdd64 L.committed (q : Int) = L.committed + (q : Int) :=
      satAdd64_reserve_exact hohL.2 hcL.1 hd0 (hinv ▸ hge)
    constructor <;>
      simp [reserve_stock, hL, hguard, record_adjustment, lookupKey_setKey_self,
        InventoryLevel.recalculate_available, hadd]
  · have hsub : satSub64 L.committed (q : Int) = L.committed - (q : Int) :=
      satSub64_exact ⟨h1, le_trans (sub_le_self _ hq0) h2⟩
    constructor <;>
      simp [release_stock, hL, record_adjustment, lookupKey_setKey_self,
        InventoryLevel.recalculate_available, hsub]
  · have h0 : wrap64 0 = 0 := by decide
    constructor <;>
      simp [apply_single_change, hL, hty, record_adjustment, lookupKey_setKey_self,
        InventoryLevel.recalculate_available, h0]
  · have hprev : wrap64 (L.on_hand + c.quantity - c.quantity) = L.on_hand := by
      rw [add_sub_cancel_right]
      exact wrap64_eq_self h1
    have hadd : satAdd64 L.on_hand c.quantity = L.on_hand + c.quantity := satAdd64_exact h2
    constructor <;>
      simp [apply_single_change, hL, hty, record_adjustment, lookupKey_setKey_self,
        InventoryLevel.recalculate_available, hadd, hprev, wrap64_eq_self h1]
  · have hsub : satSub64 L.on_hand c.quantity = L.on_hand - c.quantity := satSub64_exact h1
    have hprev : wrap64 (L.on_hand - c.quantity - c.quantity) = L.on_hand - c.quantity - c.quantity :=
      wrap64_eq_self h2
    constructor <;>
      simp [apply_single_change, hL, hty, record_adjustment, lookupKey_setKey_self,
        InventoryLevel.recalculate_available, hsub, hprev]

/-- Witness for C4's amended claim: one instance of every conjunct at the
record with `on_hand = 100, committed = 0`. -/
theorem C4_amended_audit_trail_witness :
    ((set_inventory exService100 "P" "L" 40 "Recount" 1).2.adjustments
      = exService100.adjustments ++
        [InventoryAdjustment.new "P" "L" .Adjustment (40 - exLevel100.on_hand)
          exLevel100.on_hand "Recount" 1])
    ∧ ((lookupKey (receive_stock exService100 "P" "L" 30 "PO-1" 1).2.levels
        ⟨"P", none, "L"⟩).map (fun x => x.on_hand) = some (exLevel100.on_hand + (30 : Nat)))
    ∧ ((lookupKey (commit_stock exService100 "P" "L" 30 "ORD-1" 1).2.levels
        ⟨"P", none, "L"⟩).map (fun x => x.on_hand) = some (exLevel100.on_hand - (30 : Nat)))
    ∧ ((reserve_stock exService100 "P" "L" 30 "ORD-1" 1).2.adjustments
      = exService100.adjustments ++
        [(InventoryAdjustment.new "P" "L" .Reserved ((30 : Nat) : Int) exLevel100.committed
            "Stock reserved for order" 1).with_reference "ORD-1"])
    ∧ ((lookupKey (release_stock exService100 "P" "L" 30 "ORD-1" 1).2.levels
        ⟨"P", none, "L"⟩).map (fun x => x.committed) = some (exLevel100.committed - (30 : Nat)))
    ∧ ((lookupKey (apply_single_change exService100 ⟨"P", none, "L", 40, .Set, none⟩
        "erp-1" 1).2.levels ⟨"P", none, "L"⟩).map (fun x => x.on_hand) = some 40)
    ∧ ((apply_single_change exService100 ⟨"P", none, "L", 7, .Increment, none⟩
        "erp-1" 1).2.adjustments = exService100.adjustments ++
        [InventoryAdjustment.new "P" "L" .Adjustment 7 exLevel100.on_hand "Sync from erp-1" 1])
    ∧ ((lookupKey (apply_single_change exService100 ⟨"P", none, "L", 7, .Decrement, none⟩
        "erp-1" 1).2.levels ⟨"P", none, "L"⟩).map (fun x => x.on_hand)
      = some (exLevel100.on_hand - 7)) := by
  obtain ⟨h1, h2, h3, h4, h5, h6, h7, h8⟩ :=
    C4_amended_audit_trail exService100 "P" "L" "Recount" "ORD-1" "erp-1" 40 30 1
  exact ⟨(h1 exLevel100 (by decide) (by decide)).1,
    (h2 exLevel100 (by decide) (by decide) (by decide)).2,
    (h3 exLevel100 (by decide) (by decide) (by decide)).2,
    (h4 exLevel100 (by decide) (by decide) (by decide)).1,
    (h5 exLevel100 (by decide) (by decide) (by decide)).2,
    (h6 ⟨"P", none, "L", 40, .Set, none⟩ exLevel100 (by decide) (by decide)).2,
    (h7 ⟨"P", none, "L", 7, .Increment, none⟩ exLevel100 (by decide) (by decide) (by decide)
      (by decide)).1,
    (h8 ⟨"P", none, "L", 7, .Decrement, none⟩ exLevel100 (by decide) (by decide) (by decide)
      (by decide)).2⟩

/-- C5: `complete_transfer` fails with `TransferNotFound` when the id is
unknown and with `InvalidTransferStatus` when the status is neither `Pending`
nor `InProgress` (state unchanged in both cases); on a pending/in-progress
one-item transfer of quantity `q` of product `pid` from `A` to `B` (distinct
locations, source record present, quantities within the exact range of the
saturating arithmetic), it succeeds, `on_hand` at the source decreases by
exactly `q`, `on_hand` at the destination increases by exactly `q` (from 0 if
no record existed), the transfer is stored as `Completed` with the arrival
time stamped, and the two appended adjustments both reference the transfer
id. -/
theorem C5_complete_transfer_conservation (s : InventoryService) (tid : String) (now : Nat) :
    (lookupKey s.transfers tid = none →
      complete_transfer s tid now = (.error (.TransferNotFound tid), s))
    ∧ (∀ t, lookupKey s.transfers tid = some t → t.status ≠ .Pending →
        t.status ≠ .InProgress →
      complete_transfer s tid now = (.error .InvalidTransferStatus, s))
    ∧ (∀ t pid q A, lookupKey s.transfers tid = some t →
        (t.status = .Pending ∨ t.status = .InProgress) →
        t.items = [⟨pid, none, q, 0⟩] →
        t.from_location ≠ t.to_location →
        lookupKey s.levels ⟨pid, none, t.from_location⟩ = some A →
        i64Min ≤ A.on_hand - (q : Int) → A.on_hand ≤ i64Max →
        i64Min ≤ ((lookupKey s.levels ⟨pid, none, t.to_location⟩).map
          (fun x => x.on_hand)).getD 0 →
        ((lookupKey s.levels ⟨pid, none, t.to_location⟩).map
          (fun x => x.on_hand)).getD 0 + (q : Int) ≤ i64Max →
      (complete_transfer s tid now).1 = .ok ()
      ∧ (lookupKey (complete_transfer s tid now).2.levels ⟨pid, none, t.from_location⟩).map
          (fun x => x.on_hand) = some (A.on_hand - (q : Int))
      ∧ (lookupKey (complete_transfer s tid now).2.levels ⟨pid, none, t.to_location⟩).map
          (fun x => x.on_hand)
        = some (((lookupKey s.levels ⟨pid, none, t.to_location⟩).map
            (fun x => x.on_hand)).getD 0 + (q : Int))
      ∧ lookupKey (complete_transfer s tid now).2.transfers tid
        = some { t with status := .Completed, arrived_at := some now }
      ∧ (complete_transfer s tid now).2.adjustments = s.adjustments ++
          [(InventoryAdjustment.new pid t.from_location .Shipped (-(q : Int)) A.on_hand
              "Stock shipped" now).with_reference ("Transfer " ++ tid),
           (InventoryAdjustment.new pid t.to_location .Received (q : Int)
              (((lookupKey s.levels ⟨pid, none, t.to_location⟩).map
                (fun x => x.on_hand)).getD 0)
              "Stock received" now).with_reference ("Transfer " ++ tid)]) := by
  refine ⟨fun hnone => by simp [complete_transfer, hnone],
    fun t hT hs1 hs2 => by simp [complete_transfer, hT, hs1, hs2],
    fun t pid q A hT hst hitems hne hA hAlow hAhigh hBlow hBhigh => ?_⟩
  have hq0 : (0 : Int) ≤ (q : Int) := Int.natCast_nonneg q
  have hstatus : ¬ (t.status ≠ TransferStatus.Pending ∧ t.status ≠ TransferStatus.InProgress) := by
    rcases hst with h | h <;> simp [h]
  have hkeyNe : (⟨pid, none, t.to_location⟩ : InventoryKey) ≠ ⟨pid, none, t.from_location⟩ := by
    intro h
    exact hne (congrArg InventoryKey.location_id h).symm
  have hkeyNe' : (⟨pid, none, t.from_location⟩ : InventoryKey) ≠ ⟨pid, none, t.to_location⟩ :=
    Ne.symm hkeyNe
  have hne1 : ∀ (m : List (InventoryKey × InventoryLevel)) (v : InventoryLevel),
      lookupKey (setKey m ⟨pid, none, t.from_location⟩ v) ⟨pid, none, t.to_location⟩
        = lookupKey m ⟨pid, none, t.to_location⟩ :=
    fun m v => lookupKey_setKey_ne m v hkeyNe
  have hne2 : ∀ (m : List (InventoryKey × InventoryLevel)) (v : InventoryLevel),
      lookupKey (setKey m ⟨pid, none, t.to_location⟩ v) ⟨pid, none, t.from_location⟩
        = lookupKey m ⟨pid, none, t.from_location⟩ :=
    fun m v => lookupKey_setKey_ne m v hkeyNe'
  have hsubA : satSub64 A.on_hand (q : Int) = A.on_hand - (q : Int) :=
    satSub64_exact ⟨hAlow, le_trans (sub_le_self _ hq0) hAhigh⟩
  rcases hB : lookupKey s.levels ⟨pid, none, t.to_location⟩ with _ | B
  · rw [hB] at hBlow hBhigh
    have haddB : satAdd64 0 (q : Int) = (q : Int) := by
      have h := satAdd64_exact (a := 0) (b := (q : Int))
        ⟨le_trans (by simpa using hBlow) (by simp), by simpa using hBhigh⟩
      simpa using h
    refine ⟨?_, ?_, ?_, ?_, ?_⟩ <;>
      simp [complete_transfer, hT, hstatus, hitems, transferItemsLoop, commit_stock,
        receive_stock, hA, hB, record_adjustment, hne1, hne2, lookupKey_setKey_self,
        InventoryLevel.recalculate_available, InventoryLevel.new, hsubA, haddB]
  · rw [hB] at hBlow hBhigh
    have haddB : satAdd64 B.on_hand (q : Int) = B.on_hand + (q : Int) :=
      satAdd64_exact ⟨le_trans (by simpa using hBlow) (le_add_of_nonneg_right hq0),
        by simpa using hBhigh⟩
    refine ⟨?_, ?_, ?_, ?_, ?_⟩ <;>
      simp [complete_transfer, hT, hstatus, hitems, transferItemsLoop, commit_stock,
        receive_stock, hA, hB, record_adjustment, hne1, hne2, lookupKey_setKey_self,
        InventoryLevel.recalculate_available, hsubA, haddB]

/-- Witness for C5: completing the pending transfer `T1` (20 units of "P"
from "A" holding 50 to "B" holding none) moves `on_hand` from 50 to 30 at
"A" and from 0 to 20 at "B" and completes the transfer. -/
theorem C5_complete_transfer_conservation_witness :
    (complete_transfer exTransferService "T1" 9).1 = .ok ()
    ∧ (lookupKey (complete_transfer exTransferService "T1" 9).2.levels
        ⟨"P", none, exTransfer.from_location⟩).map (fun x => x.on_hand)
      = some (exLevel50A.on_hand - ((20 : Nat) : Int))
    ∧ (lookupKey (complete_transfer exTransferService "T1" 9).2.levels
        ⟨"P", none, exTransfer.to_location⟩).map (fun x => x.on_hand)
      = some (((lookupKey exTransferService.levels ⟨"P", none, exTransfer.to_location⟩).map
          (fun x => x.on_hand)).getD 0 + ((20 : Nat) : Int))
    ∧ lookupKey (complete_transfer exTransferService "T1" 9).2.transfers "T1"
      = some { exTransfer with status := .Completed, arrived_at := some 9 } := by
  obtain ⟨h1, h2, h3, h4, h5⟩ :=
    (C5_complete_transfer_conservation exTransferService "T1" 9).2.2 exTransfer "P" 20
      exLevel50A (by decide) (.inl (by decide)) (by decide) (by decide) (by decide)
      (by decide) (by decide) (by decide) (by decide)
  exact ⟨h1, h2, h3, h4⟩

/-- The counters of the batch loop: every change is processed, each is
counted exactly once as updated or failed, and one error string is pushed per
failure. -/
theorem syncLoop_counts (applyOne : InventoryChange → InventoryService →
    Except CommerceError Unit × InventoryService) (changes : List InventoryChange)
    (s : InventoryService) :
    (syncLoop applyOne changes s).1.1 = changes.length
    ∧ (syncLoop applyOne changes s).1.2.1 + (syncLoop applyOne changes s).1.2.2.1
        = changes.length
    ∧ (syncLoop applyOne changes s).1.2.2.2.length = (syncLoop applyOne changes s).1.2.2.1 := by
  induction changes generalizing s with
  | nil => simp [syncLoop]
  | cons c rest ih =>
    unfold syncLoop
    rcases hc : applyOne c s with ⟨rc, s'⟩
    rcases hr : syncLoop applyOne rest s' with ⟨⟨p, u, f, es⟩, s''⟩
    have := ih s'
    rw [hr] at this
    rcases rc with e | u'
    · simp only at this
      simp [hr, this.1, this.2.2]
      omega
    · simp only at this
      simp [hr, this.1, this.2.2]
      omega

/-- C6: `apply_sync_changes` on a batch of `N` changes of which `k` fail
returns (always `Ok`) a `SyncResult` with `items_processed = N`,
`items_failed = k`, `items_updated = N − k`, one error string per failed
item, and status `Success` iff `k = 0`, `Partial` if `0 < k < N`, `Failed` if
`k = N > 0`; a failing item never aborts the loop (all `N` items are always
processed).  Stated over the loop with the per-item handler abstracted
(`apply_sync_changes` is the instance at `apply_single_change`, final
conjunct), since in this sequential embedding `apply_single_change` itself
never fails (its only failure mode is a poisoned lock). -/
theorem C6_sync_partial_failure (applyOne : InventoryChange → InventoryService →
    Except CommerceError Unit × InventoryService) (s : InventoryService) (sid : String)
    (changes : List InventoryChange) (now dur : Nat) :
    (∀ r s', apply_sync_changes_with applyOne s sid changes now dur = (.ok r, s') →
      r.items_processed = changes.length
      ∧ r.items_updated + r.items_failed = changes.length
      ∧ r.errors.length = r.items_failed
      ∧ (r.items_failed = 0 → r.status = .Success)
      ∧ (0 < r.items_failed → r.items_failed < changes.length → r.status = .Partial)
      ∧ (r.items_failed = changes.length → 0 < changes.length → r.status = .Failed))
    ∧ (Except.toOption (apply_sync_changes_with applyOne s sid changes now dur).1).isSome = true
    ∧ apply_sync_changes s sid changes now dur
      = apply_sync_changes_with (fun c st => apply_single_change st c sid now)
          s sid changes now dur := by
  obtain ⟨hp, hu, he⟩ := syncLoop_counts applyOne changes s
  refine ⟨fun r s' hr => ?_, ?_, rfl⟩
  · rcases hq : syncLoop applyOne changes s with ⟨⟨p, u, f, es⟩, s''⟩
    rw [hq] at hp hu he
    simp only at hp hu he
    unfold apply_sync_changes_with at hr
    rw [hq] at hr
    simp only [Prod.mk.injEq, Except.ok.injEq] at hr
    obtain ⟨hr1, _⟩ := hr
    subst hr1
    refine ⟨hp, hu, he, fun h0 => ?_, fun hlt hltN => ?_, fun hfN hN => ?_⟩
    · have hf : f = 0 := h0
      show (if f = 0 then SyncStatus.Success
        else if u > 0 then SyncStatus.Partial else SyncStatus.Failed) = SyncStatus.Success
      simp [hf]
    · have hf1 : 0 < f := hlt
      have hf2 : f < changes.length := hltN
      have hf0 : ¬ f = 0 := by omega
      have hu0 : u > 0 := by omega
      show (if f = 0 then SyncStatus.Success
        else if u > 0 then SyncStatus.Partial else SyncStatus.Failed) = SyncStatus.Partial
      simp [hf0, hu0]
    · have hf1 : f = changes.length := hfN
      have hn1 : 0 < changes.length := hN
      have hf0 : ¬ f = 0 := by omega
      have hu0 : ¬ u > 0 := by omega
      show (if f = 0 then SyncStatus.Success
        else if u > 0 then SyncStatus.Partial else SyncStatus.Failed) = SyncStatus.Failed
      simp [hf0, hu0]
  · rcases hq : syncLoop applyOne changes s with ⟨⟨p, u, f, es⟩, s''⟩
    unfold apply_sync_changes_with
    rw [hq]
    simp [Except.toOption]

/-- Witness for C6: a two-change batch whose second item fails yields
`items_processed = 2`, `items_updated = 1`, `items_failed = 1`, one error
string, status `Partial`. -/
theorem C6_sync_partial_failure_witness :
    (apply_sync_changes_with exApplyOne InventoryService.new "erp-1" exChanges 0 0).1
      = .ok exSyncResult
    ∧ (exSyncResult.items_processed = exChanges.length
      ∧ exSyncResult.items_updated + exSyncResult.items_failed = exChanges.length
      ∧ exSyncResult.errors.length = exSyncResult.items_failed
      ∧ (exSyncResult.items_failed = 0 → exSyncResult.status = .Success)
      ∧ (0 < exSyncResult.items_failed → exSyncResult.items_failed < exChanges.length →
          exSyncResult.status = .Partial)
      ∧ (exSyncResult.items_failed = exChanges.length → 0 < exChanges.length →
          exSyncResult.status = .Failed)) :=
  ⟨by decide,
   (C6_sync_partial_failure exApplyOne InventoryService.new "erp-1" exChanges 0 0).1
     exSyncResult
     (apply_sync_changes_with exApplyOne InventoryService.new "erp-1" exChanges 0 0).2
     (by decide)⟩

/-- C7: a successful `reserve_stock(p, l, q)` followed by
`release_stock(p, l, q)` restores `committed` and `available` to their
pre-reserve values (for a well-formed record, where the saturating arithmetic
is exact). -/
theorem C7_reserve_release_round_trip (s : InventoryService) (p l ref1 ref2 : String)
    (q n1 n2 : Nat) (L : InventoryLevel) (hL : lookupKey s.levels ⟨p, none, l⟩ = some L)
    (hwf : levelWF L) (hq : (q : Int) ≤ L.available) :
    (reserve_stock s p l q ref1 n1).1 = .ok ()
    ∧ (release_stock (reserve_stock s p l q ref1 n1).2 p l q ref2 n2).1 = .ok ()
    ∧ (lookupKey (release_stock (reserve_stock s p l q ref1 n1).2 p l q ref2 n2).2.levels
        ⟨p, none, l⟩).map (fun x => (x.committed, x.available))
      = some (L.committed, L.available) := by
  rcases hwf with ⟨hinv, hohL, hcL, hd0, hdM⟩
  have hinv' : L.available = satSub64 (satSub64 L.on_hand L.committed) L.damaged := hinv
  have hguard : ¬ L.available < (q : Int) := not_lt.mpr hq
  have hadd : satAdd64 L.committed (q : Int) = L.committed + (q : Int) :=
    satAdd64_reserve_exact hohL.2 hcL.1 hd0 (hinv ▸ hq)
  have hcanc : satSub64 (L.committed + (q : Int)) (q : Int) = L.committed := satSub64_cancel q hcL
  refine ⟨?_, ?_, ?_⟩ <;>
    simp [reserve_stock, release_stock, hL, hguard, record_adjustment, lookupKey_setKey_self,
      InventoryLevel.recalculate_available, hadd, hcanc, ← hinv']

/-- Witness for C7 on the record with `on_hand = 100, committed = 0,
available = 100`: reserve 30 then release 30 restores `(committed,
available) = (0, 100)`. -/
theorem C7_reserve_release_round_trip_witness :
    (reserve_stock exService100 "P" "L" 30 "ORD-1" 1).1 = .ok ()
    ∧ (release_stock (reserve_stock exService100 "P" "L" 30 "ORD-1" 1).2 "P" "L" 30
        "ORD-1" 2).1 = .ok ()
    ∧ (lookupKey (release_stock (reserve_stock exService100 "P" "L" 30 "ORD-1" 1).2
        "P" "L" 30 "ORD-1" 2).2.levels ⟨"P", none, "L"⟩).map
        (fun x => (x.committed, x.available))
      = some (exLevel100.committed, exLevel100.available) :=
  C7_reserve_release_round_trip exService100 "P" "L" "ORD-1" "ORD-1" 30 1 2 exLevel100
    (by decide) (by decide) (by decide)

/-- C8: the query layer computes exactly the derivations the spec states:
`is_low_stock` iff `0 < available ≤ low_stock_threshold`, `is_out_of_stock`
iff `available ≤ 0`, `needs_reorder` iff `available ≤ reorder_point`,
`get_total_available` sums `available` over exactly the records of the
product (its `i64` fold is exact — equal to the mathematical sum — whenever
the partial sums stay in the `i64` range, the condition every state the
claim's scenarios reach satisfies), and `get_adjustment_history` is a
permutation of the adjustments filtered to the product, sorted newest-first
by creation time, truncated to the optional limit.  (The queries are plain
functions of the state — they return no modified state, so read-onlyness
holds by construction.) -/
theorem C8_query_layer (L : InventoryLevel) (s : InventoryService) (p : String) (n : Nat) :
    (L.is_low_stock = true ↔ 0 < L.available ∧ L.available ≤ (L.low_stock_threshold : Int))
    ∧ (L.is_out_of_stock = true ↔ L.available ≤ 0)
    ∧ (L.needs_reorder = true ↔ L.available ≤ (L.reorder_point : Int))
    ∧ (prefixSumsInI64 ((s.levels.filter (fun kl => kl.1.product_id = p)).map
          (fun kl => kl.2.available)) →
        get_total_available s p
          = (s.levels.map (fun kl => if kl.1.product_id = p then kl.2.available else 0)).sum)
    ∧ (get_adjustment_history s p none).Perm
        (s.adjustments.filter (fun a => a.product_id = p))
    ∧ (∀ a ∈ get_adjustment_history s p none, a.product_id = p)
    ∧ List.Sorted newestFirst (get_adjustment_history s p none)
    ∧ get_adjustment_history s p (some n) = (get_adjustment_history s p none).take n := by
  refine ⟨?_, ?_, ?_, ?_, ?_, ?_, ?_, ?_⟩
  · simp [InventoryLevel.is_low_stock]
  · simp [InventoryLevel.is_out_of_stock]
  · simp [InventoryLevel.needs_reorder]
  · intro hps
    unfold get_total_available
    rw [foldl_wrap64_eq_sum _ hps]
    generalize s.levels = m
    induction m with
    | nil => simp
    | cons kl rest ih =>
      by_cases h : kl.1.product_id = p <;> simp [h, ih]
  · simp only [get_adjustment_history]
    exact List.perm_insertionSort _ _
  · intro a ha
    simp only [get_adjustment_history] at ha
    have hperm := List.perm_insertionSort newestFirst
      (s.adjustments.filter (fun x => x.product_id = p))
    have hmem := List.mem_filter.mp (hperm.subset ha)
    simpa using hmem.2
  · simp only [get_adjustment_history]
    exact List.sorted_insertionSort newestFirst _
  · simp [get_adjustment_history]

/-- Witness for C8 at a service whose audit log has four adjustments for "P"
created at times 0, 1, 2, 3: the history comes back newest-first, the limit
truncates it, and the partial sums of the product's availables are in range
so the total is the exact sum. -/
theorem C8_query_layer_witness :
    ((exLevel10.is_low_stock = true ↔
        0 < exLevel10.available ∧ exLevel10.available ≤ (exLevel10.low_stock_threshold : Int))
      ∧ (exLevel10.is_out_of_stock = true ↔ exLevel10.available ≤ 0)
      ∧ (exLevel10.needs_reorder = true ↔ exLevel10.available ≤ (exLevel10.reorder_point : Int))
      ∧ (prefixSumsInI64 ((exHistoryService.levels.filter
            (fun kl => kl.1.product_id = "P")).map (fun kl => kl.2.available)) →
          get_total_available exHistoryService "P"
            = (exHistoryService.levels.map
                (fun kl => if kl.1.product_id = "P" then kl.2.available else 0)).sum)
      ∧ (get_adjustment_history exHistoryService "P" none).Perm
          (exHistoryService.adjustments.filter (fun a => a.product_id = "P"))
      ∧ (∀ a ∈ get_adjustment_history exHistoryService "P" none, a.product_id = "P")
      ∧ List.Sorted newestFirst (get_adjustment_history exHistoryService "P" none)
      ∧ get_adjustment_history exHistoryService "P" (some 2)
          = (get_adjustment_history exHistoryService "P" none).take 2)
    ∧ (prefixSumsInI64 ((exHistoryService.levels.filter
          (fun kl => kl.1.product_id = "P")).map (fun kl => kl.2.available))
      ∧ get_total_available exHistoryService "P"
          = (exHistoryService.levels.map
              (fun kl => if kl.1.product_id = "P" then kl.2.available else 0)).sum
      ∧ get_total_available exHistoryService "P" = 120)
    ∧ (get_adjustment_history exHistoryService "P" none).map (fun a => a.created_at)
        = [3, 2, 1, 0]
    ∧ (get_adjustment_history exHistoryService "P" (some 2)).map (fun a => a.created_at)
        = [3, 2] :=
  ⟨C8_query_layer exLevel10 exHistoryService "P" 2,
   ⟨by decide, (C8_query_layer exLevel10 exHistoryService "P" 2).2.2.2.1 (by decide),
    by decide⟩,
   by decide, by decide⟩

/-- C9: `complete_transfer` is not atomic across items on the error path: if
the per-item loop fails at some item, `complete_transfer` returns that item's
error together with the state the earlier items already produced (no
rollback), and the transfers table — hence the transfer's status — is left at
its prior value (neither `Completed` nor restored). -/
theorem C9_complete_transfer_not_atomic (s : InventoryService) (tid : String) (now : Nat)
    (t : StockTransfer) (e : CommerceError) (s' : InventoryService)
    (hT : lookupKey s.transfers tid = some t)
    (hst : t.status = .Pending ∨ t.status = .InProgress)
    (hloop : transferItemsLoop tid t.from_location t.to_location now t.items s
      = (.error e, s')) :
    complete_transfer s tid now = (.error e, s')
    ∧ s'.transfers = s.transfers
    ∧ lookupKey s'.transfers tid = some t := by
  have hstatus : ¬ (t.status ≠ TransferStatus.Pending ∧ t.status ≠ TransferStatus.InProgress) := by
    rcases hst with h | h <;> simp [h]
  have htr : s'.transfers = s.transfers := by
    have := transferItemsLoop_transfers tid t.from_location t.to_location now t.items s
    rw [hloop] at this
    exact this
  refine ⟨?_, htr, ?_⟩
  · simp [complete_transfer, hT, hstatus, hloop]
  · rw [htr]
    exact hT

/-- Witness for C9: completing the two-item transfer `T2` fails on the second
item ("Q" has no record at "A"), yet the first item's 20 units have already
moved from "A" (50 → 30) to "B" (0 → 20) and the transfer is still
`Pending`. -/
theorem C9_complete_transfer_not_atomic_witness :
    (complete_transfer exTransferServiceBad "T2" 9
      = (.error (.InventoryNotFound "Q"),
          (transferItemsLoop "T2" exTransferBad.from_location exTransferBad.to_location 9
            exTransferBad.items exTransferServiceBad).2)
    ∧ (transferItemsLoop "T2" exTransferBad.from_location exTransferBad.to_location 9
        exTransferBad.items exTransferServiceBad).2.transfers
      = exTransferServiceBad.transfers
    ∧ lookupKey (transferItemsLoop "T2" exTransferBad.from_location exTransferBad.to_location 9
        exTransferBad.items exTransferServiceBad).2.transfers "T2" = some exTransferBad)
    ∧ ((lookupKey (complete_transfer exTransferServiceBad "T2" 9).2.levels
        ⟨"P", none, "A"⟩).map (fun x => x.on_hand) = some 30
      ∧ (lookupKey (complete_transfer exTransferServiceBad "T2" 9).2.levels
          ⟨"P", none, "B"⟩).map (fun x => x.on_hand) = some 20
      ∧ (lookupKey (complete_transfer exTransferServiceBad "T2" 9).2.transfers "T2").map
          (fun x => x.status) = some .Pending) :=
  ⟨C9_complete_transfer_not_atomic exTransferServiceBad "T2" 9 exTransferBad
      (.InventoryNotFound "Q")
      (transferItemsLoop "T2" exTransferBad.from_location exTransferBad.to_location 9
        exTransferBad.items exTransferServiceBad).2
      (by decide) (.inl (by decide)) (by decide),
   by decide, by decide, by decide⟩

/-- C10: when `reserve_stock` rejects with `InsufficientInventory` on a
record whose stored `available` is negative, the error reports `available`
as 0 (the stored value clamped below at 0 and cast to `u32`) while the whole
service state — including the stored negative `available` — is returned
unchanged. -/
theorem C10_negative_available_reported_as_zero (s : InventoryService) (p l ref : String)
    (q now : Nat) (L : InventoryLevel) (hL : lookupKey s.levels ⟨p, none, l⟩ = some L)
    (hneg : L.available < 0) :
    reserve_stock s p l q ref now = (.error (.InsufficientInventory p 0 q), s) := by
  have hlt : L.available < (q : Int) := lt_of_lt_of_le hneg (Int.natCast_nonneg q)
  have h0 : toU32 (max L.available 0) = 0 := by
    rw [max_eq_right (le_of_lt hneg)]
    decide
  simp [reserve_stock, hL, hlt, h0]

/-- Witness for C10: on the record with stored `available = -5`, reserving 3
fails with `InsufficientInventory{available: 0, requested: 3}` and the state
(still holding `available = -5`) is unchanged. -/
theorem C10_negative_available_reported_as_zero_witness :
    reserve_stock exServiceNeg "P" "L" 3 "ORD-1" 1
      = (.error (.InsufficientInventory "P" 0 3), exServiceNeg)
    ∧ (lookupKey exServiceNeg.levels ⟨"P", none, "L"⟩).map (fun x => x.available)
      = some (-5) :=
  ⟨C10_negative_available_reported_as_zero exServiceNeg "P" "L" "ORD-1" 3 1 exLevelNeg
    (by decide) (by decide), by decide⟩

end EssentiaCommerce
